import Mathlib

/-!
# MEMD — shallow embedding and verification

A shallow embedding of the MEMD single-header memory-leak tracker
(`memd.h`): the allocation registry (`MEMD_Data`), the warning log,
the four interceptor wrappers (`_memd_malloc`, `_memd_calloc`,
`_memd_free`, `_memd_realloc`), the suppression flag
(`_memd_ignore`, `memd_pause` / `memd_resume`) and the report
generator (`memd_report` with its `APPEND_TO_REPORT` growable
buffer).

Conventions of the embedding:
* `size_t` values (addresses, sizes, byte totals) are modelled as
  `Nat`; address `0` is the null pointer / empty-slot marker.
  The one place the source's documented wraparound is observable,
  the `num * size` multiplication in `_memd_calloc`, keeps an
  explicit `% 2^64`.
* The real heap is an external collaborator: each wrapper receives
  the pointer the real `malloc` / `calloc` / `realloc` returned as
  an explicit argument, and reports whether it forwarded the real
  `free` as an explicit `Bool` in its result.
* The fixed 1000-entry record array is a `List MEMD_Mem` (the
  initial state is 1000 zeroed slots); the linear first-match scans
  of `_find_by_address` become first-match list recursions.
-/

/-- The constant `MEMD_MAX_ALLOCATIONS` (1000). -/
def MEMD_MAX_ALLOCATIONS : Nat := 1000

/-- The constant `MEMD_MAX_WARNINGS` (1000). -/
def MEMD_MAX_WARNINGS : Nat := 1000

/-- Struct `MEMD_Mem`: one tracked allocation (address 0 = empty slot). -/
structure MEMD_Mem where
  address : Nat
  size : Nat
  line : Nat
  file : String
deriving DecidableEq, Repr

/-- Struct `MEMD_Warning`: one recorded diagnostic. -/
structure MEMD_Warning where
  message : String
  line : Nat
  file : String
deriving DecidableEq, Repr

/-- The global `MEMD_Data` struct: record table, byte totals and the
warning log (`warning_count` is `warnings.length`, kept below
`MEMD_MAX_WARNINGS` by `WARN`). -/
structure MEMD_Data_t where
  mem : List MEMD_Mem
  total_allocated_size : Nat
  total_free_size : Nat
  warnings : List MEMD_Warning
deriving DecidableEq, Repr

/-- The zero-initialised static `MEMD_Data`: 1000 empty slots, zero
totals, no warnings (a NULL `file` pointer is modelled as `""`). -/
def MEMD_Data_init : MEMD_Data_t :=
  { mem := List.replicate MEMD_MAX_ALLOCATIONS ⟨0, 0, 0, ""⟩
    total_allocated_size := 0
    total_free_size := 0
    warnings := [] }

/-- Macro `WARN(msg, line, file)`: append a warning if
`warning_count < MEMD_MAX_WARNINGS`, otherwise drop it silently. -/
def WARN (msg : String) (line : Nat) (file : String) (d : MEMD_Data_t) :
    MEMD_Data_t :=
  if d.warnings.length < MEMD_MAX_WARNINGS then
    { d with warnings := d.warnings ++ [⟨msg, line, file⟩] }
  else d

/-- The `_find_by_address(0)`-then-mutate idiom of `_insert`: scan for
the first slot whose `address` is `0` and overwrite it with `rec`;
`none` when every slot is occupied. -/
def insertSlot (rec : MEMD_Mem) : List MEMD_Mem → Option (List MEMD_Mem)
  | [] => none
  | m :: rest =>
    if m.address = 0 then some (rec :: rest)
    else (insertSlot rec rest).map (fun l => m :: l)

/-- The `_find_by_address(address)`-then-mutate idiom of `_erase`:
scan for the first slot with the given address, zero its `address`
field, and return the updated table with that slot's `size`; `none`
when no slot matches. -/
def eraseSlot (address : Nat) : List MEMD_Mem → Option (List MEMD_Mem × Nat)
  | [] => none
  | m :: rest =>
    if m.address = address then some ({ m with address := 0 } :: rest, m.size)
    else (eraseSlot address rest).map (fun p => (m :: p.1, p.2))

/-- Function `_insert(address, size, line, file)`: warn on a null address, warn
when the table is full, otherwise populate the first empty slot and
add `size` to `total_allocated_size`. -/
def memd_insert (address size line : Nat) (file : String) (d : MEMD_Data_t) :
    MEMD_Data_t :=
  if address = 0 then WARN "Memory allocation failed" line file d
  else
    match insertSlot ⟨address, size, line, file⟩ d.mem with
    | none => WARN "Max allocations reached" line file d
    | some mem2 =>
      { d with mem := mem2
               total_allocated_size := d.total_allocated_size + size }

/-- Function `_erase(address, line, file)`: warn on a null address, warn
("Double free detected") when the address is untracked, otherwise zero
the slot, add its size to `total_free_size`, and report success.
The `Int` result is the C return value (`-1` failure, `0` success). -/
def memd_erase (address line : Nat) (file : String) (d : MEMD_Data_t) :
    MEMD_Data_t × Int :=
  if address = 0 then (WARN "Tried to free a null ptr" line file d, -1)
  else
    match eraseSlot address d.mem with
    | none => (WARN "Double free detected" line file d, -1)
    | some (mem2, sz) =>
      ({ d with mem := mem2, total_free_size := d.total_free_size + sz }, 0)

/-- Process state: the global `MEMD_Data` plus the thread-local
`_memd_ignore` flag (an `int`; suppression is `= 1`). -/
structure MEMDState where
  data : MEMD_Data_t
  ignore : Int
deriving DecidableEq, Repr

/-- Initial process state: zeroed `MEMD_Data`, `_memd_ignore = 0`. -/
def MEMDState_init : MEMDState := { data := MEMD_Data_init, ignore := 0 }

/-- Function `memd_pause()`: set `_memd_ignore = 1`. -/
def memd_pause (s : MEMDState) : MEMDState := { s with ignore := 1 }

/-- Function `memd_resume()`: set `_memd_ignore = 0`. -/
def memd_resume (s : MEMDState) : MEMDState := { s with ignore := 0 }

/-- Function `_memd_malloc(size, line, file)`. `ptr` is the address the real
`malloc` returned (0 for NULL). Inserts unless suppressed; always
returns the raw pointer. -/
def memd_malloc (ptr size line : Nat) (file : String) (s : MEMDState) :
    MEMDState × Nat :=
  if s.ignore ≠ 1 then
    ({ s with data := memd_insert ptr size line file s.data }, ptr)
  else (s, ptr)

/-- Function `_memd_calloc(num, size, line, file)`. `ptr` is the address the
real `calloc` returned. `totalSize = num * size` wraps mod `2^64`
(the source's documented unchecked `size_t` multiplication); inserts
only when not suppressed *and* the result is non-null. -/
def memd_calloc (ptr num size line : Nat) (file : String) (s : MEMDState) :
    MEMDState × Nat :=
  let totalSize := num * size % 2 ^ 64
  if s.ignore ≠ 1 ∧ ptr ≠ 0 then
    ({ s with data := memd_insert ptr totalSize line file s.data }, ptr)
  else (s, ptr)

/-- Function `_memd_free(ptr, line, file)`. The `Bool` result records whether
the real `free(ptr)` was forwarded: only when not suppressed and
`_erase` returned 0. -/
def memd_free (ptr line : Nat) (file : String) (s : MEMDState) :
    MEMDState × Bool :=
  if s.ignore ≠ 1 then
    let r := memd_erase ptr line file s.data
    ({ s with data := r.1 }, r.2 == 0)
  else (s, false)

/-- Function `_memd_realloc(ptr, size, line, file)`. `newPtr` is the address
the real `realloc` returned in the genuine-resize branch (unused in
the other two branches). Results: new state, returned pointer, and
whether a real `free` was forwarded (only via the `size == 0` path). -/
def memd_realloc (newPtr ptr size line : Nat) (file : String)
    (s : MEMDState) : MEMDState × Nat × Bool :=
  if ptr = 0 then
    let r := memd_malloc newPtr size line file s
    (r.1, r.2, false)
  else if size = 0 then
    let r := memd_free ptr line file s
    (r.1, 0, r.2)
  else
    if newPtr ≠ 0 ∧ s.ignore ≠ 1 then
      let d1 := (memd_erase ptr line file s.data).1
      ({ s with data := memd_insert newPtr size line file d1 }, newPtr, false)
    else (s, newPtr, false)

/-- Unsigned 64-bit (`size_t`) subtraction, the arithmetic of
`MEMD_Data.total_allocated_size - MEMD_Data.total_free_size` in
`memd_report` (for operand values below `2 ^ 64`). -/
def size_t_sub (a b : Nat) : Nat := (2 ^ 64 + a - b) % 2 ^ 64

/-- One line of the Detailed Report loop:
the format string `"     Memory leak at %s:%d: (%lu bytes)\n"`. -/
def leakLine (m : MEMD_Mem) : String :=
  "     Memory leak at " ++ m.file ++ ":" ++ toString m.line ++ ": ("
    ++ toString m.size ++ " bytes)\n"

/-- One line of the Warnings loop:
the format string `"    - %s:%d: %s\n"`. -/
def warnLine (w : MEMD_Warning) : String :=
  "    - " ++ w.file ++ ":" ++ toString w.line ++ ": " ++ w.message ++ "\n"

/-- The fragments `memd_report` feeds to `APPEND_TO_REPORT`, in
program order: header, the three totals lines, the Detailed Report
section when `total_free_size != total_allocated_size` (one line per
slot with a nonzero address, in slot order), the Warnings section when
`warning_count > 0` (one line per warning, in recording order), and
the footer. -/
def reportFragments (d : MEMD_Data_t) : List String :=
  ["\n----------------------------------\n",
   "MEMD Leak Summary:\n",
   "----------------------------------\n\n",
   "   Total Memory allocated " ++ toString d.total_allocated_size ++ " bytes\n",
   "   Total Memory freed     " ++ toString d.total_free_size ++ " bytes\n",
   "   Memory Leaked          "
     ++ toString (size_t_sub d.total_allocated_size d.total_free_size)
     ++ " bytes\n"]
  ++ (if d.total_free_size ≠ d.total_allocated_size then
        "\n   Detailed Report:\n"
          :: (d.mem.filter (fun m => m.address ≠ 0)).map leakLine
      else [])
  ++ (if 0 < d.warnings.length then
        "\n   Warnings:\n" :: d.warnings.map warnLine
      else [])
  ++ ["\n----------------------------------\n\n"]

/-- The text of a successfully generated report (every buffer
(re)allocation succeeded): the fragments concatenated in order. -/
def memd_report (d : MEMD_Data_t) : String := String.join (reportFragments d)

/-- The report buffer of `memd_report`: its capacity `buffer_size`,
the write position `offset`, and the text written so far. -/
structure ReportBuf where
  buffer_size : Nat
  offset : Nat
  content : String
deriving DecidableEq, Repr

/-- The growth loop of `APPEND_TO_REPORT`:
`while (offset + needed >= buffer_size) buffer_size *= 2;`.
The `0 < buffer_size` conjunct only forces termination of the model
on the empty capacity the program never reaches (the capacity starts
at 10240 and only ever doubles). -/
def growBufferSize (offset needed : Nat) (buffer_size : Nat) : Nat :=
  if h : buffer_size ≤ offset + needed ∧ 0 < buffer_size then
    growBufferSize offset needed (buffer_size * 2)
  else buffer_size
termination_by offset + needed + 1 - buffer_size
decreasing_by omega

/-- Macro `APPEND_TO_REPORT(fmt, ...)` for one formatted fragment
(`needed` = the fragment's length): grow and reallocate when
`offset + needed >= buffer_size`, then write. `allocOk` is the real
heap's verdict on a (re)allocation of a given size; on a failed
reallocation the partial buffer is freed and the whole generation
aborts (`none`). -/
def APPEND_TO_REPORT (allocOk : Nat → Bool) (b : ReportBuf) (frag : String) :
    Option ReportBuf :=
  let needed := frag.length
  if b.buffer_size ≤ b.offset + needed then
    let newSize := growBufferSize b.offset needed b.buffer_size
    if allocOk newSize then
      some ⟨newSize, b.offset + needed, b.content ++ frag⟩
    else none
  else some ⟨b.buffer_size, b.offset + needed, b.content ++ frag⟩

/-- Function `memd_report()` with explicit buffer management: start
with a 10KB buffer (`none` right away if that `malloc` fails), then
append every fragment, aborting with `none` on the first failed
reallocation. -/
def memd_report_alloc (allocOk : Nat → Bool) (d : MEMD_Data_t) :
    Option String :=
  if allocOk (1024 * 10) then
    ((reportFragments d).foldlM (APPEND_TO_REPORT allocOk)
        ⟨1024 * 10, 0, ""⟩).map ReportBuf.content
  else none

/-- One intercepted call: the four wrappers (each carrying the
address the real heap returned) plus `memd_pause` / `memd_resume`. -/
inductive MemOp where
  | malloc (ptr size line : Nat) (file : String)
  | calloc (ptr num size line : Nat) (file : String)
  | free (ptr line : Nat) (file : String)
  | realloc (newPtr ptr size line : Nat) (file : String)
  | pause
  | resume
deriving DecidableEq, Repr

/-- State transition of one intercepted call. -/
def MemOp.apply (op : MemOp) (s : MEMDState) : MEMDState :=
  match op with
  | .malloc ptr size line file => (memd_malloc ptr size line file s).1
  | .calloc ptr num size line file => (memd_calloc ptr num size line file s).1
  | .free ptr line file => (memd_free ptr line file s).1
  | .realloc newPtr ptr size line file =>
      (memd_realloc newPtr ptr size line file s).1
  | .pause => memd_pause s
  | .resume => memd_resume s

/-- Run a sequence of intercepted calls. -/
def runOps (ops : List MemOp) (s : MEMDState) : MEMDState :=
  ops.foldl (fun s op => op.apply s) s

/-- Whether an operation is a plain allocate (`malloc`) or release
(`free`) call. -/
def MemOp.isAllocOrRelease : MemOp → Bool
  | .malloc _ _ _ _ => true
  | .free _ _ _ => true
  | _ => false

/-- A double release at state `s`: a non-suppressed `free` of a
nonzero address no live record matches. -/
def isDoubleRelease (op : MemOp) (s : MEMDState) : Bool :=
  match op with
  | .free ptr _ _ =>
      decide (s.ignore ≠ 1) && decide (ptr ≠ 0)
        && (eraseSlot ptr s.data.mem).isNone
  | _ => false

/-- No step of the sequence, run from `s`, is a double release. -/
def noDoubleRelease : List MemOp → MEMDState → Bool
  | [], _ => true
  | op :: rest, s => !isDoubleRelease op s && noDoubleRelease rest (op.apply s)

/-- Sum of the sizes of the live (nonzero-address, i.e. never
released) records of the table. -/
def liveSize : List MEMD_Mem → Nat
  | [] => 0
  | m :: rest => (if m.address ≠ 0 then m.size else 0) + liveSize rest

/-- The bookkeeping invariant of the registry: bytes allocated equal
bytes freed plus the bytes still live in the table. -/
def registry_inv (d : MEMD_Data_t) : Prop :=
  d.total_allocated_size = d.total_free_size + liveSize d.mem

/-- The three calls of spec Scenario A: allocate 100 bytes at
main.c:8 (the real heap returning address 4096), release it, release
it again at main.c:9. -/
def scenarioA : MEMDState :=
  runOps [.malloc 4096 100 8 "main.c", .free 4096 8 "main.c",
          .free 4096 9 "main.c"] MEMDState_init

/-! ## Registry bookkeeping lemmas -/

theorem WARN_mem (msg : String) (line : Nat) (file : String)
    (d : MEMD_Data_t) : (WARN msg line file d).mem = d.mem := by
  unfold WARN; split <;> rfl

theorem WARN_alloc (msg : String) (line : Nat) (file : String)
    (d : MEMD_Data_t) :
    (WARN msg line file d).total_allocated_size = d.total_allocated_size := by
  unfold WARN; split <;> rfl

theorem WARN_freed (msg : String) (line : Nat) (file : String)
    (d : MEMD_Data_t) :
    (WARN msg line file d).total_free_size = d.total_free_size := by
  unfold WARN; split <;> rfl

theorem insertSlot_liveSize {rec : MEMD_Mem} (hra : rec.address ≠ 0) :
    ∀ {mem mem2 : List MEMD_Mem}, insertSlot rec mem = some mem2 →
      liveSize mem2 = liveSize mem + rec.size := by
  intro mem
  induction mem with
  | nil => intro mem2 h; simp [insertSlot] at h
  | cons m rest ih =>
    intro mem2 h
    unfold insertSlot at h
    by_cases hm : m.address = 0
    · simp only [if_pos hm, Option.some.injEq] at h
      subst h
      simp [liveSize, hm, hra]
      omega
    · simp only [if_neg hm, Option.map_eq_some'] at h
      obtain ⟨l, hl, rfl⟩ := h
      simp [liveSize, ih hl]
      omega

theorem eraseSlot_liveSize {a : Nat} (ha : a ≠ 0) :
    ∀ {mem : List MEMD_Mem} {mem2 : List MEMD_Mem} {sz : Nat},
      eraseSlot a mem = some (mem2, sz) →
      liveSize mem = liveSize mem2 + sz := by
  intro mem
  induction mem with
  | nil => intro mem2 sz h; simp [eraseSlot] at h
  | cons m rest ih =>
    intro mem2 sz h
    unfold eraseSlot at h
    by_cases hm : m.address = a
    · simp only [if_pos hm, Option.some.injEq, Prod.mk.injEq] at h
      obtain ⟨rfl, rfl⟩ := h
      simp [liveSize, hm, ha]
      omega
    · simp only [if_neg hm, Option.map_eq_some'] at h
      obtain ⟨⟨l, s0⟩, hl, hp⟩ := h
      cases hp
      simp [liveSize, ih hl]
      omega

theorem memd_insert_inv {d : MEMD_Data_t} (h : registry_inv d)
    (address size line : Nat) (file : String) :
    registry_inv (memd_insert address size line file d) := by
  unfold memd_insert
  by_cases ha : address = 0
  · simpa [registry_inv, ha, WARN_mem, WARN_alloc, WARN_freed] using h
  · simp only [if_neg ha]
    cases hins : insertSlot ⟨address, size, line, file⟩ d.mem with
    | none => simpa [registry_inv, WARN_mem, WARN_alloc, WARN_freed] using h
    | some mem2 =>
      have := @insertSlot_liveSize ⟨address, size, line, file⟩ ha _ _ hins
      unfold registry_inv at h ⊢
      simp only [this]
      omega

theorem memd_erase_inv {d : MEMD_Data_t} (h : registry_inv d)
    (address line : Nat) (file : String) :
    registry_inv (memd_erase address line file d).1 := by
  unfold memd_erase
  by_cases ha : address = 0
  · simpa [registry_inv, ha, WARN_mem, WARN_alloc, WARN_freed] using h
  · simp only [if_neg ha]
    cases hers : eraseSlot address d.mem with
    | none => simpa [registry_inv, WARN_mem, WARN_alloc, WARN_freed] using h
    | some p =>
      obtain ⟨mem2, sz⟩ := p
      have := eraseSlot_liveSize ha hers
      unfold registry_inv at h ⊢
      simp only []
      omega

theorem MemOp.apply_inv {s : MEMDState} (h : registry_inv s.data)
    (op : MemOp) : registry_inv (op.apply s).data := by
  cases op with
  | malloc ptr size line file =>
    simp only [MemOp.apply, memd_malloc]
    split
    · exact memd_insert_inv h ptr size line file
    · exact h
  | calloc ptr num size line file =>
    simp only [MemOp.apply, memd_calloc]
    split
    · exact memd_insert_inv h ptr (num * size % 2 ^ 64) line file
    · exact h
  | free ptr line file =>
    simp only [MemOp.apply, memd_free]
    split
    · exact memd_erase_inv h ptr line file
    · exact h
  | realloc newPtr ptr size line file =>
    simp only [MemOp.apply, memd_realloc]
    by_cases hp : ptr = 0
    · simp only [if_pos hp, memd_malloc]
      split
      · exact memd_insert_inv h newPtr size line file
      · exact h
    · by_cases hs : size = 0
      · simp only [if_neg hp, if_pos hs, memd_free]
        split
        · exact memd_erase_inv h ptr line file
        · exact h
      · simp only [if_neg hp, if_neg hs]
        split
        · exact memd_insert_inv (memd_erase_inv h ptr line file)
            newPtr size line file
        · exact h
  | pause => exact h
  | resume => exact h

theorem runOps_inv {s : MEMDState} (h : registry_inv s.data)
    (ops : List MemOp) : registry_inv (runOps ops s).data := by
  induction ops generalizing s with
  | nil => exact h
  | cons op rest ih => exact ih (MemOp.apply_inv h op)

theorem liveSize_replicate_zero (n : Nat) :
    liveSize (List.replicate n ⟨0, 0, 0, ""⟩) = 0 := by
  induction n with
  | zero => rfl
  | succ k ih => simpa [List.replicate, liveSize] using ih

theorem registry_inv_init : registry_inv MEMD_Data_init := by
  simp [registry_inv, MEMD_Data_init, liveSize_replicate_zero]

/-! ## Claims -/

/-- C1: every operation (allocate, zero-allocate, resize, release)
performed while the suppression flag is set leaves the registry
(record table, totals) and the warning log bit-identical; in
particular pause / release-untracked / resume records zero warnings
and leaves the totals unchanged. -/
theorem spec_C1 (s : MEMDState) (h : s.ignore = 1)
    (ptr num size line newPtr : Nat) (file : String) :
    (memd_malloc ptr size line file s).1.data = s.data
  ∧ (memd_calloc ptr num size line file s).1.data = s.data
  ∧ (memd_free ptr line file s).1.data = s.data
  ∧ (memd_realloc newPtr ptr size line file s).1.data = s.data
  ∧ (memd_resume (memd_free ptr line file (memd_pause s)).1).data
      = s.data := by
  refine ⟨?_, ?_, ?_, ?_, ?_⟩
  · simp [memd_malloc, h]
  · simp [memd_calloc, h]
  · simp [memd_free, h]
  · unfold memd_realloc
    split_ifs with h1 h2 h3
    · simp [memd_malloc, h]
    · simp [memd_free, h]
    · exact absurd h h3.2
    · rfl
  · simp [memd_resume, memd_free, memd_pause]

/-- Witness for C1 at a concrete suppressed state. -/
theorem spec_C1_witness :
    (memd_pause MEMDState_init).ignore = 1
  ∧ (memd_free 4096 9 "main.c" (memd_pause MEMDState_init)).1.data
      = (memd_pause MEMDState_init).data :=
  ⟨rfl, (spec_C1 (memd_pause MEMDState_init) rfl 4096 0 0 9 0 "main.c").2.2.1⟩

/-- C2 (code bug): a release issued while suppression is active does
NOT forward the real heap release. Here address 4096 is a live,
tracked allocation; after `memd_pause`, releasing it forwards no real
`free` (the `Bool` is `false`) and mutates nothing, so the block is
leaked by the real heap while the claim (and the library's own
documented pause contract) says the real release still happens. -/
theorem spec_C2_code_eval :
    (eraseSlot 4096
        (memd_malloc 4096 100 5 "a.c" MEMDState_init).1.data.mem).isSome
      = true
  ∧ (memd_free 4096 6 "a.c"
        (memd_pause (memd_malloc 4096 100 5 "a.c" MEMDState_init).1)).2
      = false
  ∧ (memd_free 4096 6 "a.c"
        (memd_pause (memd_malloc 4096 100 5 "a.c" MEMDState_init).1)).1.data
      = (memd_malloc 4096 100 5 "a.c" MEMDState_init).1.data := by
  refine ⟨by decide, rfl, rfl⟩

/-- C3: after any sequence of allocate/release calls with no double
releases, run from the all-zero initial state, `total_allocated -
total_freed` equals the sum of the sizes of the records never
released. -/
theorem spec_C3 (ops : List MemOp)
    (hAR : ∀ op ∈ ops, op.isAllocOrRelease = true)
    (hNDR : noDoubleRelease ops MEMDState_init = true) :
    (runOps ops MEMDState_init).data.total_allocated_size
        - (runOps ops MEMDState_init).data.total_free_size
      = liveSize (runOps ops MEMDState_init).data.mem := by
  have h := @runOps_inv MEMDState_init registry_inv_init ops
  unfold registry_inv at h
  omega

set_option maxRecDepth 40000 in
/-- Witness for C3: allocate 100 and 50 bytes, release the first. -/
theorem spec_C3_witness :
    (∀ op ∈ [MemOp.malloc 4096 100 1 "a.c", MemOp.malloc 8192 50 2 "a.c",
             MemOp.free 4096 3 "a.c"], op.isAllocOrRelease = true)
  ∧ noDoubleRelease [MemOp.malloc 4096 100 1 "a.c",
        MemOp.malloc 8192 50 2 "a.c", MemOp.free 4096 3 "a.c"]
        MEMDState_init = true
  ∧ (runOps [MemOp.malloc 4096 100 1 "a.c", MemOp.malloc 8192 50 2 "a.c",
        MemOp.free 4096 3 "a.c"] MEMDState_init).data.total_allocated_size
      - (runOps [MemOp.malloc 4096 100 1 "a.c", MemOp.malloc 8192 50 2 "a.c",
          MemOp.free 4096 3 "a.c"] MEMDState_init).data.total_free_size
      = liveSize (runOps [MemOp.malloc 4096 100 1 "a.c",
          MemOp.malloc 8192 50 2 "a.c",
          MemOp.free 4096 3 "a.c"] MEMDState_init).data.mem :=
  ⟨by decide, by decide, spec_C3 _ (by decide) (by decide)⟩

/-- C10: after every operation sequence from the all-zero initial
state, `total_free_size <= total_allocated_size`; hence the unsigned
subtraction producing the report's Memory Leaked value never
underflows (it equals the exact difference). -/
theorem spec_C10 (ops : List MemOp) :
    (runOps ops MEMDState_init).data.total_free_size
        ≤ (runOps ops MEMDState_init).data.total_allocated_size
  ∧ ((runOps ops MEMDState_init).data.total_allocated_size < 2 ^ 64 →
      size_t_sub (runOps ops MEMDState_init).data.total_allocated_size
          (runOps ops MEMDState_init).data.total_free_size
        = (runOps ops MEMDState_init).data.total_allocated_size
            - (runOps ops MEMDState_init).data.total_free_size) := by
  have h := @runOps_inv MEMDState_init registry_inv_init ops
  unfold registry_inv at h
  have e : (2 : Nat) ^ 64 = 18446744073709551616 := by norm_num
  constructor
  · omega
  · intro hb
    unfold size_t_sub
    rw [e] at hb ⊢
    omega

set_option maxRecDepth 40000 in
/-- Witness for C10 on a sequence with a suppressed interval. -/
theorem spec_C10_witness :
    (runOps [MemOp.malloc 4096 100 1 "a.c", MemOp.free 4096 2 "a.c",
        MemOp.pause, MemOp.free 8192 4 "a.c", MemOp.resume]
        MEMDState_init).data.total_free_size
      ≤ (runOps [MemOp.malloc 4096 100 1 "a.c", MemOp.free 4096 2 "a.c",
          MemOp.pause, MemOp.free 8192 4 "a.c", MemOp.resume]
          MEMDState_init).data.total_allocated_size
  ∧ size_t_sub
        (runOps [MemOp.malloc 4096 100 1 "a.c", MemOp.free 4096 2 "a.c",
          MemOp.pause, MemOp.free 8192 4 "a.c", MemOp.resume]
          MEMDState_init).data.total_allocated_size
        (runOps [MemOp.malloc 4096 100 1 "a.c", MemOp.free 4096 2 "a.c",
          MemOp.pause, MemOp.free 8192 4 "a.c", MemOp.resume]
          MEMDState_init).data.total_free_size
      = (runOps [MemOp.malloc 4096 100 1 "a.c", MemOp.free 4096 2 "a.c",
          MemOp.pause, MemOp.free 8192 4 "a.c", MemOp.resume]
          MEMDState_init).data.total_allocated_size
        - (runOps [MemOp.malloc 4096 100 1 "a.c", MemOp.free 4096 2 "a.c",
            MemOp.pause, MemOp.free 8192 4 "a.c", MemOp.resume]
            MEMDState_init).data.total_free_size :=
  ⟨(spec_C10 _).1, (spec_C10 _).2 (by decide)⟩

/-! ## Slot-scan characterizations -/

theorem eraseSlot_eq_none_of_not_mem {a : Nat} :
    ∀ {mem : List MEMD_Mem}, (∀ m ∈ mem, m.address ≠ a) →
      eraseSlot a mem = none := by
  intro mem
  induction mem with
  | nil => intro _; rfl
  | cons m rest ih =>
    intro h
    unfold eraseSlot
    rw [if_neg (h m (by simp))]
    rw [ih (fun x hx => h x (by simp [hx]))]
    rfl

theorem insertSlot_eq_none_of_full {rec : MEMD_Mem} :
    ∀ {mem : List MEMD_Mem}, (∀ m ∈ mem, m.address ≠ 0) →
      insertSlot rec mem = none := by
  intro mem
  induction mem with
  | nil => intro _; rfl
  | cons m rest ih =>
    intro h
    unfold insertSlot
    rw [if_neg (h m (by simp))]
    rw [ih (fun x hx => h x (by simp [hx]))]
    rfl

theorem insertSlot_eq_set {rec : MEMD_Mem} :
    ∀ {mem mem2 : List MEMD_Mem}, insertSlot rec mem = some mem2 →
      ∃ i, ∃ hi : i < mem.length,
        (mem.get ⟨i, hi⟩).address = 0
        ∧ mem2 = mem.set i rec
        ∧ ∀ j (hj : j < mem.length), j < i →
            (mem.get ⟨j, hj⟩).address ≠ 0 := by
  intro mem
  induction mem with
  | nil => intro mem2 h; simp [insertSlot] at h
  | cons m rest ih =>
    intro mem2 h
    unfold insertSlot at h
    by_cases hm : m.address = 0
    · simp only [if_pos hm, Option.some.injEq] at h
      subst h
      exact ⟨0, by simp, by simpa using hm, by simp, fun j hj hj0 => absurd hj0 (by omega)⟩
    · simp only [if_neg hm, Option.map_eq_some'] at h
      obtain ⟨l, hl, rfl⟩ := h
      obtain ⟨i, hi, hget, hset, hbefore⟩ := ih hl
      refine ⟨i + 1, by simpa using hi, by simpa using hget, by simp [hset], ?_⟩
      intro j hj hji
      cases j with
      | zero => simpa using hm
      | succ k =>
        have hk : k < rest.length := by simpa using hj
        simpa using hbefore k hk (by omega)

/-- C4: a non-suppressed release of a nonzero untracked address
records exactly one "Double free detected" warning, leaves
`total_free_size` unchanged and forwards no real `free`; in general
the real `free` is forwarded exactly when `_erase` returns 0. -/
theorem spec_C4 (s : MEMDState) (ptr line : Nat) (file : String)
    (hns : s.ignore ≠ 1) (hp : ptr ≠ 0)
    (hnt : ∀ m ∈ s.data.mem, m.address ≠ ptr)
    (hw : s.data.warnings.length < MEMD_MAX_WARNINGS) :
    (memd_free ptr line file s).1.data.warnings
        = s.data.warnings ++ [⟨"Double free detected", line, file⟩]
  ∧ (memd_free ptr line file s).1.data.total_free_size
        = s.data.total_free_size
  ∧ (memd_free ptr line file s).2 = false
  ∧ ∀ (q l2 : Nat) (f2 : String),
      ((memd_free q l2 f2 s).2 = true ↔ (memd_erase q l2 f2 s.data).2 = 0) := by
  have h1 : memd_erase ptr line file s.data
      = (WARN "Double free detected" line file s.data, -1) := by
    unfold memd_erase
    rw [if_neg hp, eraseSlot_eq_none_of_not_mem hnt]
  refine ⟨?_, ?_, ?_, ?_⟩
  · simp [memd_free, hns, h1, WARN, hw]
  · simp [memd_free, hns, h1, WARN, hw]
  · simp [memd_free, hns, h1]
  · intro q l2 f2
    simp [memd_free, hns]

/-- Witness for C4 at a small concrete state with one live record. -/
theorem spec_C4_witness :
    (memd_free 7 9 "main.c"
        ⟨⟨[⟨12, 4, 1, "x.c"⟩], 4, 0, []⟩, 0⟩).1.data.warnings
        = [⟨"Double free detected", 9, "main.c"⟩]
  ∧ (memd_free 7 9 "main.c"
        ⟨⟨[⟨12, 4, 1, "x.c"⟩], 4, 0, []⟩, 0⟩).1.data.total_free_size = 0
  ∧ (memd_free 7 9 "main.c" ⟨⟨[⟨12, 4, 1, "x.c"⟩], 4, 0, []⟩, 0⟩).2
        = false :=
  ⟨((spec_C4 ⟨⟨[⟨12, 4, 1, "x.c"⟩], 4, 0, []⟩, 0⟩ 7 9 "main.c"
      (by decide) (by decide) (by decide) (by decide)).1),
   ((spec_C4 ⟨⟨[⟨12, 4, 1, "x.c"⟩], 4, 0, []⟩, 0⟩ 7 9 "main.c"
      (by decide) (by decide) (by decide) (by decide)).2.1),
   ((spec_C4 ⟨⟨[⟨12, 4, 1, "x.c"⟩], 4, 0, []⟩, 0⟩ 7 9 "main.c"
      (by decide) (by decide) (by decide) (by decide)).2.2.1)⟩

/-- C5: `_insert` with address 0 records an "allocation failed"
warning and mutates neither the table nor the totals; with no empty
slot it records a "max allocations reached" warning and records
nothing (while `_memd_malloc` still returns the raw heap pointer);
otherwise it populates the first empty slot and adds the size to
`total_allocated_size`. -/
theorem spec_C5 (d : MEMD_Data_t) (address size line : Nat) (file : String)
    (hw : d.warnings.length < MEMD_MAX_WARNINGS) :
    memd_insert 0 size line file d
        = { d with warnings :=
              d.warnings ++ [⟨"Memory allocation failed", line, file⟩] }
  ∧ ((∀ m ∈ d.mem, m.address ≠ 0) → address ≠ 0 →
      memd_insert address size line file d
        = { d with warnings :=
              d.warnings ++ [⟨"Max allocations reached", line, file⟩] })
  ∧ (∀ (s : MEMDState) (p : Nat), (memd_malloc p size line file s).2 = p)
  ∧ (address ≠ 0 → ∀ mem2,
      insertSlot ⟨address, size, line, file⟩ d.mem = some mem2 →
      memd_insert address size line file d
          = { d with
                mem := mem2
                total_allocated_size := d.total_allocated_size + size }
        ∧ ∃ i, ∃ hi : i < d.mem.length,
            (d.mem.get ⟨i, hi⟩).address = 0
            ∧ mem2 = d.mem.set i ⟨address, size, line, file⟩
            ∧ ∀ j (hj : j < d.mem.length), j < i →
                (d.mem.get ⟨j, hj⟩).address ≠ 0) := by
  refine ⟨?_, ?_, ?_, ?_⟩
  · simp [memd_insert, WARN, hw]
  · intro hfull ha
    unfold memd_insert
    rw [if_neg ha, insertSlot_eq_none_of_full hfull]
    simp [WARN, hw]
  · intro s p
    unfold memd_malloc
    split <;> rfl
  · intro ha mem2 hins
    constructor
    · unfold memd_insert
      rw [if_neg ha, hins]
    · exact insertSlot_eq_set hins

/-- Witness for C5: a full one-slot table rejects a new record with a
warning; a table with an empty second slot receives the record there. -/
theorem spec_C5_witness :
    memd_insert 9 3 4 "y.c" ⟨[⟨3, 8, 1, "x.c"⟩], 8, 0, []⟩
        = { mem := [⟨3, 8, 1, "x.c"⟩], total_allocated_size := 8,
            total_free_size := 0,
            warnings := [⟨"Max allocations reached", 4, "y.c"⟩] }
  ∧ memd_insert 9 3 4 "y.c" ⟨[⟨5, 2, 1, "x.c"⟩, ⟨0, 0, 0, ""⟩], 2, 0, []⟩
        = { mem := [⟨5, 2, 1, "x.c"⟩, ⟨9, 3, 4, "y.c"⟩],
            total_allocated_size := 2 + 3, total_free_size := 0,
            warnings := [] } :=
  ⟨(spec_C5 ⟨[⟨3, 8, 1, "x.c"⟩], 8, 0, []⟩ 9 3 4 "y.c" (by decide)).2.1
      (by decide) (by decide),
   ((spec_C5 ⟨[⟨5, 2, 1, "x.c"⟩, ⟨0, 0, 0, ""⟩], 2, 0, []⟩ 9 3 4 "y.c"
      (by decide)).2.2.2 (by decide)
      [⟨5, 2, 1, "x.c"⟩, ⟨9, 3, 4, "y.c"⟩] (by decide)).1⟩

/-- C6: `_memd_realloc` with a null handle behaves as `_memd_malloc`;
with `size == 0` it behaves as `_memd_free` and returns null;
otherwise, on real-resize success when not suppressed, it erases the
old address's record and inserts one for the new address and size;
when the real resize returns null, no tracking mutation occurs. -/
theorem spec_C6 (s : MEMDState) (newPtr ptr size line : Nat)
    (file : String) :
    memd_realloc newPtr 0 size line file s
        = ((memd_malloc newPtr size line file s).1,
           (memd_malloc newPtr size line file s).2, false)
  ∧ (ptr ≠ 0 → memd_realloc newPtr ptr 0 line file s
        = ((memd_free ptr line file s).1, 0,
           (memd_free ptr line file s).2))
  ∧ (ptr ≠ 0 → size ≠ 0 → newPtr ≠ 0 → s.ignore ≠ 1 →
      (memd_realloc newPtr ptr size line file s).1.data
          = memd_insert newPtr size line file
              (memd_erase ptr line file s.data).1
        ∧ (memd_realloc newPtr ptr size line file s).2.1 = newPtr)
  ∧ (ptr ≠ 0 → size ≠ 0 → newPtr = 0 →
      (memd_realloc newPtr ptr size line file s).1 = s
        ∧ (memd_realloc newPtr ptr size line file s).2.1 = newPtr) := by
  refine ⟨?_, ?_, ?_, ?_⟩
  · unfold memd_realloc
    rw [if_pos rfl]
  · intro hp
    unfold memd_realloc
    rw [if_neg hp, if_pos rfl]
  · intro hp hs hn hig
    unfold memd_realloc
    rw [if_neg hp, if_neg hs, if_pos ⟨hn, hig⟩]
    exact ⟨rfl, rfl⟩
  · intro hp hs hn
    unfold memd_realloc
    rw [if_neg hp, if_neg hs, if_neg (by simp [hn])]
    exact ⟨rfl, rfl⟩

/-- Witness for C6 at a small concrete state with one live record. -/
theorem spec_C6_witness :
    (memd_realloc 6 5 7 2 "y.c"
        ⟨⟨[⟨5, 2, 1, "y.c"⟩, ⟨0, 0, 0, ""⟩], 2, 0, []⟩, 0⟩).1.data
        = memd_insert 6 7 2 "y.c"
            (memd_erase 5 2 "y.c"
              ⟨[⟨5, 2, 1, "y.c"⟩, ⟨0, 0, 0, ""⟩], 2, 0, []⟩).1
  ∧ (memd_realloc 0 5 7 2 "y.c"
        ⟨⟨[⟨5, 2, 1, "y.c"⟩, ⟨0, 0, 0, ""⟩], 2, 0, []⟩, 0⟩).1
        = ⟨⟨[⟨5, 2, 1, "y.c"⟩, ⟨0, 0, 0, ""⟩], 2, 0, []⟩, 0⟩ :=
  ⟨((spec_C6 ⟨⟨[⟨5, 2, 1, "y.c"⟩, ⟨0, 0, 0, ""⟩], 2, 0, []⟩, 0⟩ 6 5 7 2
      "y.c").2.2.1 (by decide) (by decide) (by decide) (by decide)).1,
   ((spec_C6 ⟨⟨[⟨5, 2, 1, "y.c"⟩, ⟨0, 0, 0, ""⟩], 2, 0, []⟩, 0⟩ 0 5 7 2
      "y.c").2.2.2 (by decide) (by decide) (by decide)).1⟩

/-- C7 counterexample: when the real `calloc` returns null (here with
tracking active, in the initial state), `_memd_calloc` records NO
warning and changes nothing — the claim says an AllocationFailed
warning is recorded for zero-allocate as well, so the claim is false
at this input. -/
theorem spec_C7_counterexample :
    (memd_calloc 0 3 4 5 "a.c" MEMDState_init).1.data = MEMD_Data_init
  ∧ (memd_calloc 0 3 4 5 "a.c" MEMDState_init).1.data.warnings = []
  ∧ MEMDState_init.ignore ≠ 1 := by
  exact ⟨rfl, rfl, by decide⟩

/-- C7 amended: when a real allocation returns null and tracking is
not suppressed, `_memd_malloc` records one "Memory allocation failed"
warning and inserts nothing, while `_memd_calloc` inserts nothing and
records no warning (its null result is filtered before `_insert`). -/
theorem spec_C7_amended (s : MEMDState) (num size line : Nat)
    (file : String) (hns : s.ignore ≠ 1)
    (hw : s.data.warnings.length < MEMD_MAX_WARNINGS) :
    (memd_malloc 0 size line file s).1.data
        = { s.data with warnings :=
              s.data.warnings ++ [⟨"Memory allocation failed", line, file⟩] }
  ∧ (memd_calloc 0 num size line file s).1.data = s.data := by
  constructor
  · simp [memd_malloc, hns, memd_insert, WARN, hw]
  · simp [memd_calloc]

/-- Witness for C7 amended at a small concrete state. -/
theorem spec_C7_amended_witness :
    (memd_malloc 0 4 5 "a.c" ⟨⟨[⟨3, 8, 1, "x.c"⟩], 8, 0, []⟩, 0⟩).1.data
        = { mem := [⟨3, 8, 1, "x.c"⟩], total_allocated_size := 8,
            total_free_size := 0,
            warnings := [⟨"Memory allocation failed", 5, "a.c"⟩] }
  ∧ (memd_calloc 0 3 4 5 "a.c"
        ⟨⟨[⟨3, 8, 1, "x.c"⟩], 8, 0, []⟩, 0⟩).1.data
        = ⟨[⟨3, 8, 1, "x.c"⟩], 8, 0, []⟩ :=
  spec_C7_amended ⟨⟨[⟨3, 8, 1, "x.c"⟩], 8, 0, []⟩, 0⟩ 3 4 5 "a.c"
    (by decide) (by decide)

/-! ## Report structure lemmas -/

theorem ne_of_take5 {a b : String} (h : a.data.take 5 ≠ b.data.take 5) :
    a ≠ b := fun e => h (by rw [e])

theorem take5_leakLine (m : MEMD_Mem) :
    (leakLine m).data.take 5 = "     ".data := by
  simp only [leakLine, String.data_append, List.append_assoc]
  rw [List.take_append_of_le_length (by decide)]
  decide

theorem take5_warnLine (w : MEMD_Warning) :
    (warnLine w).data.take 5 = "    -".data := by
  simp only [warnLine, String.data_append, List.append_assoc]
  rw [List.take_append_of_le_length (by decide)]
  decide

theorem take5_allocFrag (x : String) :
    ("   Total Memory allocated " ++ x ++ " bytes\n").data.take 5
      = "   To".data := by
  simp only [String.data_append, List.append_assoc]
  rw [List.take_append_of_le_length (by decide)]
  decide

theorem take5_freedFrag (x : String) :
    ("   Total Memory freed     " ++ x ++ " bytes\n").data.take 5
      = "   To".data := by
  simp only [String.data_append, List.append_assoc]
  rw [List.take_append_of_le_length (by decide)]
  decide

theorem take5_leakedFrag (x : String) :
    ("   Memory Leaked          " ++ x ++ " bytes\n").data.take 5
      = "   Me".data := by
  simp only [String.data_append, List.append_assoc]
  rw [List.take_append_of_le_length (by decide)]
  decide

theorem dhdr_ne_allocFrag (x : String) :
    "\n   Detailed Report:\n" ≠ "   Total Memory allocated " ++ x ++ " bytes\n" := by
  apply ne_of_take5
  rw [take5_allocFrag]
  decide

theorem dhdr_ne_freedFrag (x : String) :
    "\n   Detailed Report:\n" ≠ "   Total Memory freed     " ++ x ++ " bytes\n" := by
  apply ne_of_take5
  rw [take5_freedFrag]
  decide

theorem dhdr_ne_leakedFrag (x : String) :
    "\n   Detailed Report:\n" ≠ "   Memory Leaked          " ++ x ++ " bytes\n" := by
  apply ne_of_take5
  rw [take5_leakedFrag]
  decide

theorem warnLine_ne_dhdr (w : MEMD_Warning) :
    warnLine w ≠ "\n   Detailed Report:\n" := by
  apply ne_of_take5
  rw [take5_warnLine]
  decide

theorem whdr_ne_allocFrag (x : String) :
    "\n   Warnings:\n" ≠ "   Total Memory allocated " ++ x ++ " bytes\n" := by
  apply ne_of_take5
  rw [take5_allocFrag]
  decide

theorem whdr_ne_freedFrag (x : String) :
    "\n   Warnings:\n" ≠ "   Total Memory freed     " ++ x ++ " bytes\n" := by
  apply ne_of_take5
  rw [take5_freedFrag]
  decide

theorem whdr_ne_leakedFrag (x : String) :
    "\n   Warnings:\n" ≠ "   Memory Leaked          " ++ x ++ " bytes\n" := by
  apply ne_of_take5
  rw [take5_leakedFrag]
  decide

theorem leakLine_ne_whdr (m : MEMD_Mem) :
    leakLine m ≠ "\n   Warnings:\n" := by
  apply ne_of_take5
  rw [take5_leakLine]
  decide

theorem dhdr_mem_iff (d : MEMD_Data_t) :
    "\n   Detailed Report:\n" ∈ reportFragments d
      ↔ d.total_free_size ≠ d.total_allocated_size := by
  unfold reportFragments
  by_cases hfa : d.total_free_size = d.total_allocated_size
  · rw [if_neg (by simp [hfa])]
    simp only [hfa, ne_eq, not_true_eq_false, iff_false]
    by_cases hwc : 0 < d.warnings.length
    · rw [if_pos hwc]
      intro hmem
      simp only [List.nil_append, List.append_nil, List.mem_append,
        List.mem_cons, List.not_mem_nil, List.mem_map, or_false,
        false_or] at hmem
      rcases hmem with ((h | h | h | h | h | h) | h | ⟨w, _, hw⟩) | h
      · exact absurd h (by decide)
      · exact absurd h (by decide)
      · exact absurd h (by decide)
      · exact dhdr_ne_allocFrag _ h
      · exact dhdr_ne_freedFrag _ h
      · exact dhdr_ne_leakedFrag _ h
      · exact absurd h (by decide)
      · exact warnLine_ne_dhdr w hw
      · exact absurd h (by decide)
    · rw [if_neg hwc]
      intro hmem
      simp only [List.nil_append, List.append_nil, List.mem_append,
        List.mem_cons, List.not_mem_nil, List.mem_map, or_false,
        false_or] at hmem
      rcases hmem with (h | h | h | h | h | h) | h
      · exact absurd h (by decide)
      · exact absurd h (by decide)
      · exact absurd h (by decide)
      · exact dhdr_ne_allocFrag _ h
      · exact dhdr_ne_freedFrag _ h
      · exact dhdr_ne_leakedFrag _ h
      · exact absurd h (by decide)
  · rw [if_pos hfa]
    simp only [hfa, ne_eq, not_false_eq_true, iff_true]
    simp [List.mem_append]

theorem whdr_mem_iff (d : MEMD_Data_t) :
    "\n   Warnings:\n" ∈ reportFragments d ↔ d.warnings ≠ [] := by
  unfold reportFragments
  by_cases hwc : 0 < d.warnings.length
  · rw [if_pos hwc]
    refine iff_of_true ?_ ?_
    · simp [List.mem_append]
    · intro h
      rw [h] at hwc
      exact absurd hwc (by decide)
  · rw [if_neg hwc]
    have hnil : d.warnings = [] :=
      List.eq_nil_of_length_eq_zero (by omega)
    refine iff_of_false ?_ (by simp [hnil])
    intro hmem
    by_cases hfa : d.total_free_size ≠ d.total_allocated_size
    · rw [if_pos hfa] at hmem
      simp only [List.nil_append, List.append_nil, List.mem_append,
        List.mem_cons, List.not_mem_nil, List.mem_map, or_false,
        false_or] at hmem
      rcases hmem with ((h | h | h | h | h | h) | h | ⟨m, _, hm⟩) | h
      · exact absurd h (by decide)
      · exact absurd h (by decide)
      · exact absurd h (by decide)
      · exact whdr_ne_allocFrag _ h
      · exact whdr_ne_freedFrag _ h
      · exact whdr_ne_leakedFrag _ h
      · exact absurd h (by decide)
      · exact leakLine_ne_whdr m hm
      · exact absurd h (by decide)
    · rw [if_neg hfa] at hmem
      simp only [List.nil_append, List.append_nil, List.mem_append,
        List.mem_cons, List.not_mem_nil, List.mem_map, or_false,
        false_or] at hmem
      rcases hmem with (h | h | h | h | h | h) | h
      · exact absurd h (by decide)
      · exact absurd h (by decide)
      · exact absurd h (by decide)
      · exact whdr_ne_allocFrag _ h
      · exact whdr_ne_freedFrag _ h
      · exact whdr_ne_leakedFrag _ h
      · exact absurd h (by decide)

theorem eraseSlot_replicate_zero {a : Nat} (ha : a ≠ 0) (n : Nat) :
    eraseSlot a (List.replicate n ⟨0, 0, 0, ""⟩) = none := by
  induction n with
  | zero => rfl
  | succ k ih =>
    rw [List.replicate_succ]
    unfold eraseSlot
    rw [if_neg (fun h => ha h.symm), ih]
    rfl

theorem scenarioA_eval :
    scenarioA
      = ⟨⟨⟨0, 100, 8, "main.c"⟩ :: List.replicate 999 ⟨0, 0, 0, ""⟩,
          100, 100, [⟨"Double free detected", 9, "main.c"⟩]⟩, 0⟩ := by
  have h12 : runOps [.malloc 4096 100 8 "main.c", .free 4096 8 "main.c"]
      MEMDState_init
      = ⟨⟨⟨0, 100, 8, "main.c"⟩ :: List.replicate 999 ⟨0, 0, 0, ""⟩,
          100, 100, []⟩, 0⟩ := by rfl
  have hz := eraseSlot_replicate_zero (show (4096 : Nat) ≠ 0 by decide) 999
  have hes : eraseSlot 4096
      (⟨0, 100, 8, "main.c"⟩ :: List.replicate 999 ⟨0, 0, 0, ""⟩) = none := by
    unfold eraseSlot
    rw [if_neg (by decide), hz]
    rfl
  have he1 : memd_erase 4096 9 "main.c"
      ⟨⟨0, 100, 8, "main.c"⟩ :: List.replicate 999 ⟨0, 0, 0, ""⟩,
        100, 100, []⟩
      = (⟨⟨0, 100, 8, "main.c"⟩ :: List.replicate 999 ⟨0, 0, 0, ""⟩,
          100, 100, [⟨"Double free detected", 9, "main.c"⟩]⟩, -1) := by
    unfold memd_erase
    dsimp only
    rw [if_neg (show ¬(4096 = 0) by decide), hes]
    rfl
  show MemOp.apply (.free 4096 9 "main.c")
      (runOps [.malloc 4096 100 8 "main.c", .free 4096 8 "main.c"]
        MEMDState_init) = _
  rw [h12]
  show (memd_free 4096 9 "main.c"
      ⟨⟨⟨0, 100, 8, "main.c"⟩ :: List.replicate 999 ⟨0, 0, 0, ""⟩,
        100, 100, []⟩, 0⟩).1 = _
  unfold memd_free
  dsimp only
  rw [if_pos (show (0 : Int) ≠ 1 by decide), he1]

set_option maxRecDepth 20000 in
theorem scenarioA_report :
    memd_report scenarioA.data
      = "\n----------------------------------\nMEMD Leak Summary:\n----------------------------------\n\n   Total Memory allocated 100 bytes\n   Total Memory freed     100 bytes\n   Memory Leaked          0 bytes\n\n   Warnings:\n    - main.c:9: Double free detected\n\n----------------------------------\n\n" := by
  rw [scenarioA_eval]
  decide

/-- C8: section conditions, ordering and Scenario A of the report. -/
theorem spec_C8 (d : MEMD_Data_t)
    (hle : d.total_free_size ≤ d.total_allocated_size)
    (hlt : d.total_allocated_size < 2 ^ 64) :
    ("\n   Detailed Report:\n" ∈ reportFragments d
        ↔ size_t_sub d.total_allocated_size d.total_free_size ≠ 0)
  ∧ (d.total_free_size ≠ d.total_allocated_size →
      List.IsInfix ((d.mem.filter (fun m => m.address ≠ 0)).map leakLine)
        (reportFragments d))
  ∧ ("\n   Warnings:\n" ∈ reportFragments d ↔ d.warnings ≠ [])
  ∧ (d.warnings ≠ [] →
      List.IsInfix (d.warnings.map warnLine) (reportFragments d))
  ∧ memd_report scenarioA.data
      = "\n----------------------------------\nMEMD Leak Summary:\n----------------------------------\n\n   Total Memory allocated 100 bytes\n   Total Memory freed     100 bytes\n   Memory Leaked          0 bytes\n\n   Warnings:\n    - main.c:9: Double free detected\n\n----------------------------------\n\n" := by
  have e : (2 : Nat) ^ 64 = 18446744073709551616 := by norm_num
  rw [e] at hlt
  have harith : size_t_sub d.total_allocated_size d.total_free_size ≠ 0
      ↔ d.total_free_size ≠ d.total_allocated_size := by
    unfold size_t_sub
    rw [e]
    omega
  refine ⟨(dhdr_mem_iff d).trans harith.symm, ?_, whdr_mem_iff d, ?_,
    scenarioA_report⟩
  · intro hfa
    unfold reportFragments
    rw [if_pos hfa]
    exact ⟨["\n----------------------------------\n", "MEMD Leak Summary:\n",
      "----------------------------------\n\n",
      "   Total Memory allocated " ++ toString d.total_allocated_size
        ++ " bytes\n",
      "   Total Memory freed     " ++ toString d.total_free_size
        ++ " bytes\n",
      "   Memory Leaked          "
        ++ toString (size_t_sub d.total_allocated_size d.total_free_size)
        ++ " bytes\n",
      "\n   Detailed Report:\n"],
      (if 0 < d.warnings.length then
        "\n   Warnings:\n" :: List.map warnLine d.warnings else [])
        ++ ["\n----------------------------------\n\n"],
      by simp⟩
  · intro hwn
    have hwc : 0 < d.warnings.length := by
      cases hl : d.warnings with
      | nil => exact absurd hl hwn
      | cons a l => simp [hl]
    unfold reportFragments
    rw [if_pos hwc]
    exact ⟨["\n----------------------------------\n", "MEMD Leak Summary:\n",
      "----------------------------------\n\n",
      "   Total Memory allocated " ++ toString d.total_allocated_size
        ++ " bytes\n",
      "   Total Memory freed     " ++ toString d.total_free_size
        ++ " bytes\n",
      "   Memory Leaked          "
        ++ toString (size_t_sub d.total_allocated_size d.total_free_size)
        ++ " bytes\n"]
      ++ (if d.total_free_size ≠ d.total_allocated_size then
            "\n   Detailed Report:\n"
              :: (d.mem.filter (fun m => m.address ≠ 0)).map leakLine
          else [])
      ++ ["\n   Warnings:\n"],
      ["\n----------------------------------\n\n"],
      by simp⟩

/-- Witness for C8 at a small concrete registry. -/
theorem spec_C8_witness :
    ("\n   Detailed Report:\n"
        ∈ reportFragments ⟨[⟨7, 5, 2, "z.c"⟩], 5, 0,
            [⟨"Double free detected", 3, "z.c"⟩]⟩
      ↔ size_t_sub 5 0 ≠ 0)
  ∧ ("\n   Warnings:\n"
        ∈ reportFragments ⟨[⟨7, 5, 2, "z.c"⟩], 5, 0,
            [⟨"Double free detected", 3, "z.c"⟩]⟩
      ↔ ([⟨"Double free detected", 3, "z.c"⟩] : List MEMD_Warning) ≠ []) :=
  ⟨(spec_C8 ⟨[⟨7, 5, 2, "z.c"⟩], 5, 0, [⟨"Double free detected", 3, "z.c"⟩]⟩
      (by decide) (by decide)).1,
   (spec_C8 ⟨[⟨7, 5, 2, "z.c"⟩], 5, 0, [⟨"Double free detected", 3, "z.c"⟩]⟩
      (by decide) (by decide)).2.2.1⟩

/-! ## Buffer growth lemmas -/

theorem growBufferSize_fits_aux (offset needed : Nat) :
    ∀ k bs, offset + needed + 1 - bs ≤ k → 0 < bs →
      offset + needed < growBufferSize offset needed bs := by
  intro k
  induction k with
  | zero =>
    intro bs hk hbs
    unfold growBufferSize
    rw [dif_neg (by omega)]
    omega
  | succ k ih =>
    intro bs hk hbs
    unfold growBufferSize
    by_cases hc : bs ≤ offset + needed ∧ 0 < bs
    · rw [dif_pos hc]
      exact ih (bs * 2) (by omega) (by omega)
    · rw [dif_neg hc]
      omega

theorem growBufferSize_pow_aux (offset needed : Nat) :
    ∀ k bs, offset + needed + 1 - bs ≤ k → 0 < bs →
      ∃ j, growBufferSize offset needed bs = bs * 2 ^ j
        ∧ ∀ i, offset + needed < bs * 2 ^ i →
            growBufferSize offset needed bs ≤ bs * 2 ^ i := by
  intro k
  induction k with
  | zero =>
    intro bs hk hbs
    unfold growBufferSize
    rw [dif_neg (by omega)]
    exact ⟨0, by simp, fun i _ => Nat.le_mul_of_pos_right bs (by positivity)⟩
  | succ k ih =>
    intro bs hk hbs
    unfold growBufferSize
    by_cases hc : bs ≤ offset + needed ∧ 0 < bs
    · rw [dif_pos hc]
      obtain ⟨j, hj, hmin⟩ := ih (bs * 2) (by omega) (by omega)
      refine ⟨j + 1, by rw [hj]; ring, ?_⟩
      intro i hi
      cases i with
      | zero =>
        simp at hi
        omega
      | succ i2 =>
        have h2 : offset + needed < bs * 2 * 2 ^ i2 := by
          calc offset + needed < bs * 2 ^ (i2 + 1) := hi
          _ = bs * 2 * 2 ^ i2 := by ring
        calc growBufferSize offset needed (bs * 2) ≤ bs * 2 * 2 ^ i2 :=
              hmin i2 h2
        _ = bs * 2 ^ (i2 + 1) := by ring
    · rw [dif_neg hc]
      exact ⟨0, by simp, fun i _ => Nat.le_mul_of_pos_right bs (by positivity)⟩

/-- C9: when a fragment would exceed the buffer, the capacity is
doubled until it fits (the least such doubling) and the buffer
reallocated; a failed reallocation (or a failed initial allocation)
makes report generation return empty. -/
theorem spec_C9 (allocOk : Nat → Bool) (d : MEMD_Data_t)
    (offset needed bs : Nat) (b : ReportBuf) (frag : String)
    (l1 l2 : List String) (b1 : ReportBuf) :
    (0 < bs →
      offset + needed < growBufferSize offset needed bs
      ∧ ∃ j, growBufferSize offset needed bs = bs * 2 ^ j
          ∧ ∀ i, offset + needed < bs * 2 ^ i →
              growBufferSize offset needed bs ≤ bs * 2 ^ i)
  ∧ (b.buffer_size ≤ b.offset + frag.length →
      (allocOk (growBufferSize b.offset frag.length b.buffer_size) = false →
          APPEND_TO_REPORT allocOk b frag = none)
      ∧ (allocOk (growBufferSize b.offset frag.length b.buffer_size) = true →
          APPEND_TO_REPORT allocOk b frag
            = some ⟨growBufferSize b.offset frag.length b.buffer_size,
                b.offset + frag.length, b.content ++ frag⟩))
  ∧ (allocOk (1024 * 10) = false → memd_report_alloc allocOk d = none)
  ∧ (reportFragments d = l1 ++ frag :: l2 →
      l1.foldlM (APPEND_TO_REPORT allocOk) ⟨1024 * 10, 0, ""⟩ = some b1 →
      APPEND_TO_REPORT allocOk b1 frag = none →
      memd_report_alloc allocOk d = none) := by
  refine ⟨?_, ?_, ?_, ?_⟩
  · intro hbs
    exact ⟨growBufferSize_fits_aux offset needed (offset + needed + 1) bs
        (by omega) hbs,
      growBufferSize_pow_aux offset needed (offset + needed + 1) bs
        (by omega) hbs⟩
  · intro hov
    constructor <;> intro hA
    · simp [APPEND_TO_REPORT, hov, hA]
    · simp [APPEND_TO_REPORT, hov, hA]
  · intro hf
    simp [memd_report_alloc, hf]
  · intro hfr hfold hfail
    unfold memd_report_alloc
    by_cases hini : allocOk (1024 * 10)
    · rw [if_pos hini, hfr]
      rw [List.foldlM_append]
      simp [hfold, List.foldlM_cons, hfail]
    · rw [if_neg hini]

/-- Witness for C9: a constantly failing heap makes the append step
and the whole generation fail; growth strictly exceeds the needed
size. -/
theorem spec_C9_witness :
    8 + 3 < growBufferSize 8 3 10
  ∧ APPEND_TO_REPORT (fun _ => false) ⟨10, 8, "12345678"⟩ "abc" = none
  ∧ memd_report_alloc (fun _ => false) MEMD_Data_init = none :=
  ⟨((spec_C9 (fun _ => false) MEMD_Data_init 8 3 10 ⟨10, 8, "12345678"⟩
      "abc" [] [] ⟨10, 0, ""⟩).1 (by decide)).1,
   ((spec_C9 (fun _ => false) MEMD_Data_init 8 3 10 ⟨10, 8, "12345678"⟩
      "abc" [] [] ⟨10, 0, ""⟩).2.1 (by decide)).1 rfl,
   (spec_C9 (fun _ => false) MEMD_Data_init 8 3 10 ⟨10, 8, "12345678"⟩
      "abc" [] [] ⟨10, 0, ""⟩).2.2.1 rfl⟩
